import Mathlib

/-!
Verification of the bpsr-uza-modules data pipeline: shallow embedding of the
module parser (moduleParser.js), the CharSerialize extractor and wire-format
fallback (star resonance monitor core), the TCP capture state machine
(packetCapture.js), and the optimizer pre-filter, combat-power and GA
population initialization (moduleOptimizer.js, moduleTypes.js).

Modelling conventions: JavaScript byte buffers are lists of Nat; unsigned
32-bit arithmetic is Nat with explicit mod 2 ^ 32; the sentinel -1 used for
tcpNextSeq is an Int; JS Map objects are association lists in insertion
order; fields that the wire decoder may deliver as a scalar or as a sequence
are a ScalarOrSeq sum; Math.random shuffles are an input stream of draws, and
Date.now is an input clock stream. Loops whose progress is data-dependent
take explicit fuel.
-/

/-- Values that a collapsed repeated field can take: either a bare scalar or
a sequence. Mirrors the defensive scalar-or-array handling in the source. -/
inductive ScalarOrSeq where
  | scalar (n : Nat)
  | seq (l : List Nat)
  deriving DecidableEq

/-- Stable insertion of one element: a goes before the first b with le a b,
matching the stable order of Array.prototype.sort for a non-strict le. -/
def insertBy (le : α → α → Bool) (a : α) : List α → List α
  | [] => [a]
  | b :: bs => if le a b then a :: b :: bs else b :: insertBy le a bs

/-- Stable sort used to model Array.prototype.sort (stable per ES2019). -/
def insertionSort (le : α → α → Bool) : List α → List α
  | [] => []
  | x :: xs => insertBy le x (insertionSort le xs)

/-- Buffer.readUInt32BE at an offset; none models the out-of-range throw. -/
def readUInt32BE (l : List Nat) (off : Nat) : Option Nat :=
  match l.drop off with
  | a :: b :: c :: d :: _ => some (((a * 256 + b) * 256 + c) * 256 + d)
  | _ => none

/-- Buffer.readUInt32LE at an offset; none models the out-of-range throw. -/
def readUInt32LE (l : List Nat) (off : Nat) : Option Nat :=
  match l.drop off with
  | a :: b :: c :: d :: _ => some (a + 256 * (b + 256 * (c + 256 * d)))
  | _ => none

/-- Big-endian value of a whole byte list (used for u64/u32 reads split off a
message body). -/
def beNat (l : List Nat) : Nat := l.foldl (fun acc b => acc * 256 + b) 0

/-- JavaScript x >>> 0 on a possibly negative number: unsigned 32-bit view. -/
def jsUShr0 (i : Int) : Nat := (i % (2 ^ 32 : Int)).toNat

/-! ## Data model (moduleTypes.js) -/

/-- ModulePart class of moduleTypes.js. -/
structure ModulePart where
  id : Nat
  name : String
  value : Nat
  deriving DecidableEq

/-- ModuleInfo class of moduleTypes.js. -/
structure ModuleInfo where
  name : String
  configId : Nat
  uuid : Nat
  quality : Nat
  parts : List ModulePart
  deriving DecidableEq

/-- MODULE_NAMES of moduleTypes.js. -/
def MODULE_NAMES : List (Nat × String) :=
  [(5500101, "Rare Attack"), (5500102, "Epic Attack"), (5500103, "Legendary Attack"),
   (5500104, "Legendary Attack-Preferred"),
   (5500201, "Rare Support"), (5500202, "Epic Support"), (5500203, "Legendary Support"),
   (5500204, "Legendary Support-Preferred"),
   (5500301, "Rare Guard"), (5500302, "Epic Guard"), (5500303, "Legendary Guard"),
   (5500304, "Legendary Guard-Preferred")]

/-- MODULE_ATTR_NAMES of moduleTypes.js. -/
def MODULE_ATTR_NAMES : List (Nat × String) :=
  [(1110, "Strength Boost"), (1111, "Agility Boost"), (1112, "Intellect Boost"),
   (1113, "Special Attack"), (1114, "Elite Strike"),
   (1205, "Healing Boost"), (1206, "Healing Enhance"),
   (1407, "Cast Focus"), (1408, "Attack SPD"), (1409, "Crit Focus"), (1410, "Luck Focus"),
   (1307, "Resistance"), (1308, "Armor"),
   (2104, "DMG Stack"), (2105, "Agile"), (2204, "Life Condense"), (2205, "First Aid"),
   (2404, "Life Wave"), (2405, "Life Steal"), (2406, "Team Luck & Crit"),
   (2304, "Final Protection")]

/-- ATTR_THRESHOLDS of moduleTypes.js. -/
def ATTR_THRESHOLDS : List Nat := [1, 4, 8, 12, 16, 20]

/-- BASIC_ATTR_POWER_MAP of moduleTypes.js. -/
def BASIC_ATTR_POWER_MAP : List (Nat × Nat) :=
  [(1, 7), (2, 14), (3, 29), (4, 44), (5, 167), (6, 254)]

/-- SPECIAL_ATTR_POWER_MAP of moduleTypes.js. -/
def SPECIAL_ATTR_POWER_MAP : List (Nat × Nat) :=
  [(1, 14), (2, 29), (3, 59), (4, 89), (5, 298), (6, 448)]

/-- TOTAL_ATTR_POWER_MAP of moduleTypes.js, entry for entry (keys 9..17 and
107..112 are absent there and are absent here). -/
def TOTAL_ATTR_POWER_MAP : List (Nat × Nat) :=
  [(0, 0), (1, 5), (2, 11), (3, 17), (4, 23), (5, 29), (6, 34), (7, 40), (8, 46),
   (18, 104), (19, 110), (20, 116), (21, 122), (22, 128), (23, 133), (24, 139), (25, 145),
   (26, 151), (27, 157), (28, 163), (29, 168), (30, 174), (31, 180), (32, 186), (33, 192),
   (34, 198), (35, 203), (36, 209), (37, 215), (38, 221), (39, 227), (40, 233), (41, 238),
   (42, 244), (43, 250), (44, 256), (45, 262), (46, 267), (47, 273), (48, 279), (49, 285),
   (50, 291), (51, 297), (52, 302), (53, 308), (54, 314), (55, 320), (56, 326), (57, 332),
   (58, 337), (59, 343), (60, 349), (61, 355), (62, 361), (63, 366), (64, 372), (65, 378),
   (66, 384), (67, 390), (68, 396), (69, 401), (70, 407), (71, 413), (72, 419), (73, 425),
   (74, 431), (75, 436), (76, 442), (77, 448), (78, 454), (79, 460), (80, 466), (81, 471),
   (82, 477), (83, 489), (84, 489), (85, 495), (86, 500), (87, 506), (88, 512), (89, 518),
   (90, 524), (91, 530), (92, 535), (93, 541), (94, 547), (95, 553), (96, 559), (97, 565),
   (98, 570), (99, 576), (100, 582), (101, 588), (102, 594), (103, 599), (104, 605), (105, 611),
   (106, 617), (113, 658), (114, 664), (115, 669), (116, 675), (117, 681), (118, 687),
   (119, 693), (120, 699)]

/-- ATTR_NAME_TYPE_MAP of moduleTypes.js. -/
def ATTR_NAME_TYPE_MAP : List (String × String) :=
  [("Strength Boost", "basic"), ("Agility Boost", "basic"), ("Intellect Boost", "basic"),
   ("Special Attack", "basic"), ("Elite Strike", "basic"), ("Healing Boost", "basic"),
   ("Healing Enhance", "basic"), ("Cast Focus", "basic"), ("Attack SPD", "basic"),
   ("Crit Focus", "basic"), ("Luck Focus", "basic"), ("Resistance", "basic"),
   ("Armor", "basic"),
   ("DMG Stack", "special"), ("Agile", "special"), ("Life Condense", "special"),
   ("First Aid", "special"), ("Life Wave", "special"), ("Life Steal", "special"),
   ("Team Luck & Crit", "special"), ("Final Protection", "special")]

/-! ## Combat power (moduleOptimizer.js calculateCombatPower) -/

/-- One step of building attrBreakdown: a JS object keyed by attribute name in
insertion order, adding part.value to the existing entry or appending. -/
def bumpAttr (bd : List (String × Nat)) (name : String) (v : Nat) : List (String × Nat) :=
  match bd with
  | [] => [(name, v)]
  | (n, x) :: rest => if n = name then (n, x + v) :: rest else (n, x) :: bumpAttr rest name v

/-- The attrBreakdown loop of calculateCombatPower: for each module, for each
part, attrBreakdown[part.name] = (attrBreakdown[part.name] or 0) + part.value. -/
def computeAttrBreakdown (modules : List ModuleInfo) : List (String × Nat) :=
  modules.foldl (fun bd m => m.parts.foldl (fun bd p => bumpAttr bd p.name p.value) bd) []

/-- The maxLevel loop of calculateCombatPower: count thresholds with
attrValue at or above them. -/
def maxLevelOf (v : Nat) : Nat :=
  ATTR_THRESHOLDS.foldl (fun acc t => if v ≥ t then acc + 1 else acc) 0

/-- Per-attribute contribution of the calculateCombatPower loop body: zero
when maxLevel is 0, else the basic or special power table at maxLevel
(ATTR_NAME_TYPE_MAP defaulting to basic, lookup defaulting to 0 as in
powerMap[maxLevel] or 0). -/
def perAttrPower (name : String) (v : Nat) : Nat :=
  let maxLevel := maxLevelOf v
  if 0 < maxLevel then
    let attrType := (ATTR_NAME_TYPE_MAP.lookup name).getD "basic"
    let powerMap := if attrType = "special" then SPECIAL_ATTR_POWER_MAP else BASIC_ATTR_POWER_MAP
    (powerMap.lookup maxLevel).getD 0
  else 0

/-- ModuleOptimizer.calculateCombatPower: threshold power summed over the
breakdown entries plus the total-attribute-value power, paired with the
breakdown it computed. -/
def calculateCombatPower (modules : List ModuleInfo) : Nat × List (String × Nat) :=
  let bd := computeAttrBreakdown modules
  let thresholdPower := bd.foldl (fun acc p => acc + perAttrPower p.1 p.2) 0
  let totalAttrValue := bd.foldl (fun acc p => acc + p.2) 0
  (thresholdPower + (TOTAL_ATTR_POWER_MAP.lookup totalAttrValue).getD 0, bd)

/-- Spec-side level: maxLevel as the size of the set of thresholds t in
the fixed list with t at most v, following the words of the claim. -/
def maxLevelSpec (v : Nat) : Nat :=
  (([1, 4, 8, 12, 16, 20] : List Nat).countP (fun t => decide (t ≤ v)))

/-- Spec-side per-attribute power, following the words of the claim: nothing
for maxLevel 0, else the basic or special table keyed by maxLevel. -/
def perAttrPowerSpec (name : String) (v : Nat) : Nat :=
  if maxLevelSpec v = 0 then 0
  else
    ((if (ATTR_NAME_TYPE_MAP.lookup name).getD "basic" = "special"
      then SPECIAL_ATTR_POWER_MAP else BASIC_ATTR_POWER_MAP).lookup (maxLevelSpec v)).getD 0

/-! ## Container decoding structures (shared view of CharSerialize)

Protobuf message fields that are always present after decoding (repeated
fields decode to arrays, possibly collapsed to scalars by defensive code
paths) are modelled as ScalarOrSeq; ModNewAttr itself may be absent. -/

/-- ModNewAttr field of an item: just its ModParts. -/
structure ModNewAttrV where
  modParts : ScalarOrSeq
  deriving DecidableEq

/-- Item of a package (ConfigId, Uuid, Quality, optional ModNewAttr). -/
structure Item where
  configId : Nat
  uuid : Nat
  quality : Nat
  modNewAttr : Option ModNewAttrV
  deriving DecidableEq

/-- Entry of Mod.ModInfos: just its InitLinkNums. -/
structure ModInfoDetails where
  initLinkNums : ScalarOrSeq
  deriving DecidableEq

/-- Package: its Items mapping in enumeration order. -/
structure Package where
  items : List (String × Item)
  deriving DecidableEq

/-- The decoded CharSerialize view: ItemPackage.Packages and Mod.ModInfos. -/
structure CharSerializeView where
  packages : List (String × Package)
  modInfos : List (String × ModInfoDetails)
  deriving DecidableEq

/-! ## ModuleParser.parseModuleInfo (moduleParser.js) -/

/-- Guard item.ModNewAttr.ModParts with ModParts.length greater than 0, with
JS semantics: on a scalar, .length is undefined so the comparison is false
(a scalar 0 already fails truthiness); on a sequence the length is tested. -/
def modPartsGuard005 : ScalarOrSeq → Bool
  | .scalar _ => false
  | .seq l => decide (0 < l.length)

/-- Normalization isIterable(raw) spread-else-singleton of moduleParser.js. -/
def normalizeSS : ScalarOrSeq → List Nat
  | .scalar n => [n]
  | .seq l => l

/-- ModulePart construction of moduleParser.js with its unknown-attribute
default name. -/
def mkModulePart005 (partId value : Nat) : ModulePart :=
  ⟨partId, (MODULE_ATTR_NAMES.lookup partId).getD ("Unknown Attribute(" ++ toString partId ++ ")"),
   value⟩

/-- The part-pairing loop of parseModuleInfo: for i below modParts.length,
push a part only when i is below initLinkNums.length. Entries of modParts
with no matching initLinkNums index are dropped. -/
def zipParts : List Nat → List Nat → List ModulePart
  | p :: ps, v :: vs => mkModulePart005 p v :: zipParts ps vs
  | _, _ => []

/-- Per-item body of parseModuleInfo: require the ModParts guard and a
ModInfos entry under the item key, then build the module with the
unknown-module default name. -/
def parseItem (modInfos : List (String × ModInfoDetails)) (key : String) (item : Item) :
    Option ModuleInfo :=
  match item.modNewAttr with
  | none => none
  | some mna =>
    if modPartsGuard005 mna.modParts then
      match modInfos.lookup key with
      | none => none
      | some details =>
        some ⟨(MODULE_NAMES.lookup item.configId).getD
                ("Unknown Module(" ++ toString item.configId ++ ")"),
              item.configId, item.uuid, item.quality,
              zipParts (normalizeSS mna.modParts) (normalizeSS details.initLinkNums)⟩
    else none

/-- Per-package body of parseModuleInfo: a package is examined only when its
first enumerated item exists and carries ModNewAttr. -/
def parsePackage (modInfos : List (String × ModInfoDetails)) (pkg : Package) :
    List ModuleInfo :=
  match pkg.items.head? with
  | none => []
  | some kv =>
    if kv.2.modNewAttr.isSome then
      pkg.items.filterMap (fun kv => parseItem modInfos kv.1 kv.2)
    else []

/-- ModuleParser.parseModuleInfo on the null-filter path (attributes and
excludeAttributes null, the path the monitor core calls). -/
def parseModuleInfo (vData : CharSerializeView) : List ModuleInfo :=
  (vData.packages.map (fun kv => parsePackage vData.modInfos kv.2)).flatten

/-! ## StarResonanceMonitor extraction (monitor core) -/

/-- Falsy-or-empty test shared by the ModParts skip (not modParts, or an
array of length 0) and the InitLinkNums skip (raw or-else empty array, then
length strictly equal 0; a scalar has undefined length, so only scalar 0,
which or-defaults to the empty array, passes the equality). -/
def ssFalsy06 : ScalarOrSeq → Bool
  | .scalar n => decide (n = 0)
  | .seq l => decide (l.length = 0)

/-- Array.isArray ternary of the extractor: a scalar becomes a one-element
array, an array stays itself. -/
def toArray06 : ScalarOrSeq → List Nat
  | .scalar n => [n]
  | .seq l => l

/-- Value paired with modParts index i: initLinkNums[i] when i is below the
length, else the default 1. A scalar InitLinkNums has undefined length, so
the comparison is false and every index gets the default 1. -/
def ilnValue06 (iln : ScalarOrSeq) (i : Nat) : Nat :=
  match iln with
  | .scalar _ => 1
  | .seq l => l.getD i 1

/-- The part loop of the extractor: one ModulePart for every entry of the
normalized modParts array, with the Attr default name for unknown ids. -/
def extractPartsGo (iln : ScalarOrSeq) : List Nat → Nat → List ModulePart
  | [], _ => []
  | p :: ps, i =>
    ⟨p, (MODULE_ATTR_NAMES.lookup p).getD ("Attr(" ++ toString p ++ ")"), ilnValue06 iln i⟩ ::
    extractPartsGo iln ps (i + 1)

/-- Per-item body of the extractor: skip on missing ModNewAttr, falsy or
empty ModParts, falsy ConfigId, no ModInfos entry (itemKey first, then the
stringified uuid: JS object indexing stringifies a numeric key), or empty
InitLinkNums; Quality or-defaults to 3. -/
def extractModuleItem (modInfos : List (String × ModInfoDetails)) (itemKey : String)
    (item : Item) : Option ModuleInfo :=
  match item.modNewAttr with
  | none => none
  | some mna =>
    if ssFalsy06 mna.modParts then none
    else if item.configId = 0 then none
    else
      match (modInfos.lookup itemKey).orElse (fun _ => modInfos.lookup (toString item.uuid)) with
      | none => none
      | some modInfo =>
        if ssFalsy06 modInfo.initLinkNums then none
        else
          let parts := extractPartsGo modInfo.initLinkNums (toArray06 mna.modParts) 0
          if 0 < parts.length then
            some ⟨(MODULE_NAMES.lookup item.configId).getD
                    ("Module(" ++ toString item.configId ++ ")"),
                  item.configId, item.uuid,
                  (if item.quality = 0 then 3 else item.quality), parts⟩
          else none

/-- StarResonanceMonitor extraction over every package and item of the
decoded CharSerialize view. -/
def extractModulesFromCharSerialize (charData : CharSerializeView) : List ModuleInfo :=
  (charData.packages.map
    (fun kv => kv.2.items.filterMap (fun it => extractModuleItem charData.modInfos it.1 it.2))).flatten

/-! ## Wire-format heuristic fallback (monitor core) -/

/-- The attribute window of the fallback: for i from the configId offset up
to min(offset + 100, length - 4), collect a part when the u32 at i is an
attribute id in 1100..2500 with a known name and the byte at i + 4 (read
only when i + 5 is below the length) is in 1..10. -/
def extractPartsAtOffset (buffer : List Nat) (off : Nat) : List ModulePart :=
  (List.range' off (min (off + 100) (buffer.length - 4) - off)).filterMap
    (fun i =>
      match readUInt32LE buffer i with
      | none => none
      | some attrId =>
        if 1100 ≤ attrId ∧ attrId ≤ 2500 ∧ (MODULE_ATTR_NAMES.lookup attrId).isSome then
          if i + 5 < buffer.length then
            match (buffer.drop (i + 4)).head? with
            | none => none
            | some value =>
              if 0 < value ∧ value ≤ 10 then
                some ⟨attrId, (MODULE_ATTR_NAMES.lookup attrId).getD "", value⟩
              else none
          else none
        else none)

/-- The per-hit extractor of the fallback: build a synthetic ModuleInfo with
uuid set to the clock reading (Date.now) and the ad hoc quality
min(5, max(3, configId mod 10)), only when at least one part was found. -/
def extractModuleAtOffset (buffer : List Nat) (off : Nat) (now : Nat) : Option ModuleInfo :=
  match readUInt32LE buffer off with
  | none => none
  | some configId =>
    let parts := extractPartsAtOffset buffer off
    if 0 < parts.length then
      some ⟨(MODULE_NAMES.lookup configId).getD ("Module(" ++ toString configId ++ ")"),
            configId, now, min 5 (max 3 (configId % 10)), parts⟩
    else none

/-- The scan loop of the fallback: offsets from 0 while below length - 8,
extracting at every little-endian u32 in 5,500,000..5,600,000; the clock
stream is read once per successfully extracted module (one Date.now call per
constructed ModuleInfo). -/
def wireScanGo (buffer : List Nat) (clock : Nat → Nat) : Nat → Nat → Nat → List ModuleInfo
  | 0, _, _ => []
  | fuel + 1, off, k =>
    if off < buffer.length - 8 then
      match readUInt32LE buffer off with
      | some v =>
        if 5500000 ≤ v ∧ v ≤ 5600000 then
          match extractModuleAtOffset buffer off (clock k) with
          | some m => m :: wireScanGo buffer clock fuel (off + 1) (k + 1)
          | none => wireScanGo buffer clock fuel (off + 1) k
        else wireScanGo buffer clock fuel (off + 1) k
      | none => wireScanGo buffer clock fuel (off + 1) k
    else []

/-- StarResonanceMonitor wire-format fallback scan over a whole buffer. -/
def parseModulesFromWireFormat (buffer : List Nat) (clock : Nat → Nat) : List ModuleInfo :=
  wireScanGo buffer clock buffer.length 0 0

/-! ## Capture state machine (packetCapture.js)

State of the selected flow after server identification: the claims about
buffering, caps and eviction concern the processing path that runs once the
source server matches the current server. -/

/-- Entry of the TCP cache: payload plus the lastAccess time used for LRU. -/
structure CacheEntry where
  payload : List Nat
  lastAccess : Nat
  deriving DecidableEq

/-- PacketCapture state for the selected flow: the tcpCache Map in insertion
order, tcpNextSeq with its -1 sentinel, the reassembled data buffer, and the
tcpLastTime stamp. -/
structure CapState where
  tcpCache : List (Nat × CacheEntry)
  tcpNextSeq : Int
  data : List Nat
  tcpLastTime : Nat
  deriving DecidableEq

/-- Map.get on the cache. -/
def mapGet (cache : List (Nat × CacheEntry)) (k : Nat) : Option CacheEntry :=
  (cache.find? (fun p => p.1 == k)).map (fun p => p.2)

/-- Map.set on the cache: replace in place, or append a new key. -/
def mapSet (cache : List (Nat × CacheEntry)) (k : Nat) (v : CacheEntry) :
    List (Nat × CacheEntry) :=
  if cache.any (fun p => p.1 == k) then cache.map (fun p => if p.1 == k then (k, v) else p)
  else cache ++ [(k, v)]

/-- Map.delete on the cache. -/
def mapDelete (cache : List (Nat × CacheEntry)) (k : Nat) : List (Nat × CacheEntry) :=
  cache.filter (fun p => p.1 != k)

/-- maxCacheSize of packetCapture.js. -/
def maxCacheSize : Nat := 1000

/-- maxDataBufferSize of packetCapture.js: 10 MiB. -/
def maxDataBufferSize : Nat := 10 * 1024 * 1024

/-- The scan of _evictOldestCacheEntry: oldestTime starts at Infinity (none)
and an entry replaces the candidate only when strictly older. -/
def findOldestGo : List (Nat × CacheEntry) → Option (Nat × Nat) → Option (Nat × Nat)
  | [], best => best
  | (k, e) :: rest, best =>
    match best with
    | none => findOldestGo rest (some (k, e.lastAccess))
    | some kt =>
      if e.lastAccess < kt.2 then findOldestGo rest (some (k, e.lastAccess))
      else findOldestGo rest (some kt)

/-- Least recently used key and time of the cache, none when empty. -/
def findOldest (cache : List (Nat × CacheEntry)) : Option (Nat × Nat) :=
  findOldestGo cache none

/-- PacketCapture._evictOldestCacheEntry. -/
def evictOldestCacheEntry (cache : List (Nat × CacheEntry)) : List (Nat × CacheEntry) :=
  match findOldest cache with
  | none => cache
  | some kt => mapDelete cache kt.1

/-- The shouldCache expression of _processTcpStream: seq at or past
tcpNextSeq, or the wrap-around test tcpNextSeq strictly above 0x7fffffff with
seq strictly below 0x80000000. -/
def shouldCache (tcpNextSeq seq : Nat) : Bool :=
  decide (seq ≥ tcpNextSeq) || (decide (tcpNextSeq > 0x7fffffff) && decide (seq < 0x80000000))

/-- Spec-side buffering predicate, following the words of the claim: buffer
iff seq is at or past expected in unsigned order, or expected is strictly
greater than 2 ^ 31 and seq strictly below 2 ^ 31. -/
def bufferSpecC4 (expected seq : Nat) : Prop :=
  expected ≤ seq ∨ (2 ^ 31 < expected ∧ seq < 2 ^ 31)

/-- The caching stage of _processTcpStream: when shouldCache holds, evict the
LRU entry if the cache is full, then set the entry with the current time. -/
def cacheSegment (s : CapState) (seq : Nat) (payload : List Nat) (now : Nat) : CapState :=
  if shouldCache (jsUShr0 s.tcpNextSeq) seq then
    let cache1 := if maxCacheSize ≤ s.tcpCache.length then evictOldestCacheEntry s.tcpCache
                  else s.tcpCache
    { s with tcpCache := mapSet cache1 seq ⟨payload, now⟩ }
  else s

/-- The drain loop of _reassembleTcpStream: while the cache holds the entry
at tcpNextSeq, append its payload (dropping the buffer and clearing the cache
if the 10 MiB cap would be exceeded), advance tcpNextSeq mod 2 ^ 32, delete
the entry and stamp tcpLastTime. -/
def reassembleLoop : Nat → Nat → CapState → CapState
  | 0, _, s => s
  | fuel + 1, now, s =>
    match mapGet s.tcpCache (jsUShr0 s.tcpNextSeq) with
    | none => s
    | some entry =>
      if maxDataBufferSize < s.data.length + entry.payload.length then
        { s with data := [], tcpCache := [] }
      else
        reassembleLoop fuel now
          { s with data := s.data ++ entry.payload,
                   tcpNextSeq := Int.ofNat ((jsUShr0 s.tcpNextSeq + entry.payload.length) % 2 ^ 32),
                   tcpCache := mapDelete s.tcpCache (jsUShr0 s.tcpNextSeq),
                   tcpLastTime := now }

/-- PacketCapture._reassembleTcpStream: a -1 tcpNextSeq only logs, otherwise
normalize to unsigned 32-bit and drain. -/
def reassembleTcpStream (fuel now : Nat) (s : CapState) : CapState :=
  if s.tcpNextSeq = -1 then s
  else reassembleLoop fuel now { s with tcpNextSeq := Int.ofNat (jsUShr0 s.tcpNextSeq) }

/-- PacketCapture._processTcpStream on the selected flow (server already
identified and matching): adopt an initial tcpNextSeq only when the payload
has more than 4 bytes and its leading u32 looks like a valid outer size, then
cache per shouldCache and drain. -/
def processTcpStream (fuel now seqRaw : Nat) (payload : List Nat) (s : CapState) : CapState :=
  let seq := seqRaw % 2 ^ 32
  if s.tcpNextSeq = -1 then
    if 4 < payload.length ∧ (readUInt32BE payload 0).getD 0 < 0x0fffff then
      reassembleTcpStream fuel now
        (cacheSegment { s with tcpNextSeq := Int.ofNat seq } seq payload now)
    else s
  else
    reassembleTcpStream fuel now
      (cacheSegment { s with tcpNextSeq := Int.ofNat (jsUShr0 s.tcpNextSeq) } seq payload now)

/-- The outer-packet loop of _processCompletePackets: while more than 4 bytes
are buffered, read the big-endian size; stop when the buffer holds less than
size bytes, or on a size above 0x0fffff (logged as an invalid packet size);
otherwise slice the packet off and continue. Neither stop clears the cache or
drops the remaining buffer. The emitted packets are returned alongside. -/
def processCompletePackets : Nat → CapState → CapState × List (List Nat)
  | 0, s => (s, [])
  | fuel + 1, s =>
    if 4 < s.data.length then
      match readUInt32BE s.data 0 with
      | none => (s, [])
      | some packetSize =>
        if s.data.length < packetSize then (s, [])
        else if 0x0fffff < packetSize then (s, [])
        else
          let packet := s.data.take packetSize
          let rest := processCompletePackets fuel { s with data := s.data.drop packetSize }
          (rest.1, packet :: rest.2)
    else (s, [])

/-! ## Notify and FrameDown messages (packetCapture.js) -/

/-- GAME_SERVICE_UUID of _processNotifyMsg. -/
def GAME_SERVICE_UUID : Nat := 0x0000000063335342

/-- The value _processNotifyMsg emits for a sync container candidate. -/
structure NotifyResult where
  vData : List Nat
  raw : Bool
  methodId : Nat
  deriving DecidableEq

/-- PacketCapture._processNotifyMsg on the body following the size and type
fields: read serviceUuid, stubId and methodId (a short body throws and the
catch returns null); discard a foreign serviceUuid; on a compressed payload
whose decompression fails, log and continue with the original payload; emit
the payload exactly when methodId is 21. -/
def processNotifyMsg (zstd : List Nat → Option (List Nat)) (isZstdCompressed : Bool)
    (body : List Nat) : Option NotifyResult :=
  if body.length < 16 then none
  else
    let serviceUuid := beNat (body.take 8)
    let methodId := beNat ((body.drop 12).take 4)
    if serviceUuid ≠ GAME_SERVICE_UUID then none
    else
      let payload := body.drop 16
      let msgPayload :=
        if isZstdCompressed ∧ payload ≠ [] then
          match zstd payload with
          | some d => d
          | none => payload
        else payload
      if methodId = 21 then some ⟨msgPayload, true, methodId⟩ else none

/-- PacketCapture._processFrameDownMsg on the body following the size and
type fields: read the server sequence id (a short body throws and the catch
returns null), stop on an empty nested packet, and on a compressed nested
packet whose decompression fails return null (the message is dropped);
otherwise recurse into the nested packet. -/
def processFrameDownMsg (recurse : List Nat → Option NotifyResult)
    (zstd : List Nat → Option (List Nat)) (isZstdCompressed : Bool)
    (body : List Nat) : Option NotifyResult :=
  if body.length < 4 then none
  else
    let nested := body.drop 4
    if nested = [] then none
    else if isZstdCompressed then
      match zstd nested with
      | none => none
      | some d => recurse d
    else recurse nested

/-! ## Optimizer pre-filter (moduleOptimizer.js prefilterModules) -/

/-- Total attribute value of a module: parts.reduce sum of values. -/
def moduleTotalValue (m : ModuleInfo) : Nat := (m.parts.map (fun p => p.value)).sum

/-- prefilterTopNPerAttr of ModuleOptimizer. -/
def prefilterTopNPerAttr : Nat := 60

/-- prefilterTopNTotalValue of ModuleOptimizer. -/
def prefilterTopNTotalValue : Nat := 100

/-- The sortedByTotalValue sort: descending by total value, stable. -/
def sortedByTotalValue (modules : List ModuleInfo) : List ModuleInfo :=
  insertionSort (fun a b => decide (moduleTotalValue b ≤ moduleTotalValue a)) modules

/-- One push onto the attrModules object: append the pair to the list under
the attribute name, creating the key in insertion order when absent. -/
def attrPush (am : List (String × List (ModuleInfo × Nat))) (name : String)
    (mv : ModuleInfo × Nat) : List (String × List (ModuleInfo × Nat)) :=
  match am with
  | [] => [(name, [mv])]
  | (n, lst) :: rest =>
    if n = name then (n, lst ++ [mv]) :: rest else (n, lst) :: attrPush rest name mv

/-- The attrModules object of prefilterModules: for each module and part,
push (module, part.value) under part.name. -/
def buildAttrModules (modules : List ModuleInfo) : List (String × List (ModuleInfo × Nat)) :=
  modules.foldl (fun am m => m.parts.foldl (fun am p => attrPush am p.name (m, p.value)) am) []

/-- Set.add of candidateModules: no duplicate entries, insertion order. -/
def addModule (s : List ModuleInfo) (m : ModuleInfo) : List ModuleInfo :=
  if m ∈ s then s else s ++ [m]

/-- Adding a whole batch to the candidate set. -/
def addAll (s : List ModuleInfo) (xs : List ModuleInfo) : List ModuleInfo :=
  xs.foldl addModule s

/-- The skip test of the per-attribute loop: prioritizedAttrs truthy (any
array, even the empty one) and not containing the attribute name. A null
prioritizedAttrs never skips. -/
def attrSkip (prioritizedAttrs : Option (List String)) (attrName : String) : Bool :=
  match prioritizedAttrs with
  | none => false
  | some l => decide (attrName ∉ l)

/-- Body of the per-attribute loop of prefilterModules: skip per attrSkip,
else sort the (module, value) pairs descending by value, keep the top
prefilterTopNPerAttr and add their modules to the candidate set. -/
def prefilterStep (prioritizedAttrs : Option (List String)) (cand : List ModuleInfo)
    (entry : String × List (ModuleInfo × Nat)) : List ModuleInfo :=
  if attrSkip prioritizedAttrs entry.1 then cand
  else
    addAll cand
      (((insertionSort (fun a b => decide (b.2 ≤ a.2)) entry.2).take
          prefilterTopNPerAttr).map (fun mv => mv.1))

/-- ModuleOptimizer.prefilterModules: the top modules by total value seed the
candidate set, then for every attribute entry not skipped, the top
prefilterTopNPerAttr modules by that part value are added. -/
def prefilterModules (modules : List ModuleInfo) (prioritizedAttrs : Option (List String)) :
    List ModuleInfo :=
  if modules.length = 0 then []
  else
    let topModules := (sortedByTotalValue modules).take prefilterTopNTotalValue
    let candidate0 := addAll [] topModules
    (buildAttrModules modules).foldl (prefilterStep prioritizedAttrs) candidate0

/-! ## GA population initialization (moduleOptimizer.js) -/

/-- The factorial helper of moduleOptimizer.js (result times i for i from 2
to n), with exact natural-number arithmetic. -/
def factorial : Nat → Nat
  | 0 => 1
  | 1 => 1
  | n + 2 => factorial (n + 1) * (n + 2)

/-- The ModuleSolution constructor sort: modules ascending by uuid. -/
def sortByUuid (mods : List ModuleInfo) : List ModuleInfo :=
  insertionSort (fun a b => decide (a.uuid ≤ b.uuid)) mods

/-- getCombinationId of a canonical solution: the uuid list (the JS string
join with commas is injective on numeral lists). -/
def comboId (sol : List ModuleInfo) : List Nat := sol.map (fun m => m.uuid)

/-- The rejection loop of initializePopulation: each iteration takes the next
shuffle from the draw stream, keeps its first four modules as a canonical
solution, and pushes it unless its combination id was already seen; none
models a loop that has not reached the target when the stream runs out. -/
def initGo (target : Nat) :
    List (List ModuleInfo) → List (List ModuleInfo) → List (List Nat) →
    Option (List (List ModuleInfo))
  | [], population, _ => if target ≤ population.length then some population else none
  | d :: rest, population, seen =>
    if target ≤ population.length then some population
    else
      let sol := sortByUuid (d.take 4)
      if comboId sol ∈ seen then initGo target rest population seen
      else initGo target rest (population ++ [sol]) (seen ++ [comboId sol])

/-- initializePopulation of runSingleGaCampaign with exact arithmetic: a pool
below 4 yields the empty population; otherwise the target size is the
minimum of the requested size and n! / (4! (n-4)!), and the rejection loop
fills the population from the draw stream. -/
def initializePopulation (pool : List ModuleInfo) (size : Nat)
    (draws : List (List ModuleInfo)) : Option (List (List ModuleInfo)) :=
  if pool.length < 4 then some []
  else
    let maxPossibleCombinations := factorial pool.length / (factorial 4 * factorial (pool.length - 4))
    let targetSize := min size maxPossibleCombinations
    if targetSize = 0 then some []
    else initGo targetSize draws [] []

/-! ## Concrete inputs for counterexamples and witnesses -/

/-- ModInfos with one entry whose InitLinkNums sequence is shorter than the
matching ModParts sequence. -/
def c1ModInfos : List (String × ModInfoDetails) := [("k", ⟨.seq [8]⟩)]

/-- CharSerialize view with a single package whose single item has two
ModParts entries but only one InitLinkNums value. -/
def c1VData : CharSerializeView :=
  ⟨[("1", ⟨[("k", ⟨5500103, 42, 5, some ⟨.seq [1110, 1113]⟩⟩)]⟩)], c1ModInfos⟩

/-- Capture state whose expected next sequence is exactly 2 ^ 31. -/
def c4State : CapState := ⟨[], Int.ofNat (2 ^ 31), [], 0⟩

/-- Notify body: GAME_SERVICE_UUID, stubId 0, methodId 21, payload 9, 9. -/
def c5Body : List Nat :=
  [0, 0, 0, 0, 0x63, 0x33, 0x53, 0x42, 0, 0, 0, 0, 0, 0, 0, 21, 9, 9]

/-- Capture state whose buffer starts with the outer size field 5 (below the
minimum valid size 6) followed by junk, with a non-empty segment cache. -/
def c6State : CapState := ⟨[(7, ⟨[1], 3⟩)], Int.ofNat 0, [0, 0, 0, 5, 9, 9, 9, 9, 9, 9], 0⟩

/-- Filler module for the pre-filter counterexample: one part of the shared
attribute with value 10. -/
def c7Filler (i : Nat) : ModuleInfo := ⟨"", i, i, 0, [⟨0, "Y", 10⟩]⟩

/-- The module holding the only part of attribute X, with the smallest total
value of the pool. -/
def c7ModX : ModuleInfo := ⟨"", 100, 100, 0, [⟨1, "X", 1⟩]⟩

/-- Pool of 101 modules: 100 fillers of total value 10, then c7ModX with
total value 1. -/
def c7Pool : List ModuleInfo := (List.range 100).map c7Filler ++ [c7ModX]

/-- Buffer with two configId hits (5500101 at offset 0, 5500102 at offset 4)
sharing one attribute id 1110 with value byte 5. -/
def c9Buffer : List Nat :=
  [0xC5, 0xEC, 0x53, 0x00, 0xC6, 0xEC, 0x53, 0x00, 0x56, 0x04, 0x00, 0x00, 0x05, 0, 0, 0]

/-- Module with no parts and a given uuid, for small pools. -/
def plainModule (i : Nat) : ModuleInfo := ⟨"", 0, i, 0, []⟩

/-- Pool of exactly 4 modules for the initialization witness. -/
def c3Pool : List ModuleInfo := [plainModule 0, plainModule 1, plainModule 2, plainModule 3]

/-- Small capture state for the bounds witness. -/
def c8State : CapState := ⟨[(3, ⟨[1, 2], 5⟩)], Int.ofNat 3, [9], 0⟩

/-- Package whose first item lacks ModNewAttr while its second item carries a
non-empty ModParts sequence. -/
def c10Pkg : Package :=
  ⟨[("a", ⟨5500101, 1, 5, none⟩), ("b", ⟨5500102, 2, 5, some ⟨.seq [1110]⟩⟩)]⟩

/-- CharSerialize view holding only the gated package, with a matching
ModInfos entry for its second item. -/
def c10VData : CharSerializeView := ⟨[("1", c10Pkg)], [("b", ⟨.seq [4]⟩)]⟩

/-- Capture state whose buffer announces an outer packet of size 0x100000
(one above the maximum) and holds that many bytes. -/
def c6Big : CapState := ⟨[], Int.ofNat 0, 0 :: 16 :: 0 :: 0 :: List.replicate 1048572 0, 0⟩

/-- One-module pool for the pre-filter witness. -/
def c7Tiny : ModuleInfo := ⟨"", 0, 0, 0, [⟨0, "Y", 2⟩]⟩

/-! ## Helper lemmas -/

theorem insertBy_perm (le : α → α → Bool) (a : α) :
    ∀ l : List α, (insertBy le a l).Perm (a :: l) := by
  intro l
  induction l with
  | nil => simp [insertBy]
  | cons b bs ih =>
    by_cases h : le a b = true
    · simp [insertBy, h]
    · simp only [insertBy, h]
      rw [if_neg (by simp [h])]
      exact (List.Perm.cons b ih).trans (List.Perm.swap a b bs)

theorem insertionSort_perm (le : α → α → Bool) :
    ∀ l : List α, (insertionSort le l).Perm l := by
  intro l
  induction l with
  | nil => simp [insertionSort]
  | cons x xs ih =>
    exact (insertBy_perm le x (insertionSort le xs)).trans (List.Perm.cons x ih)

theorem insertionSort_length (le : α → α → Bool) (l : List α) :
    (insertionSort le l).length = l.length :=
  (insertionSort_perm le l).length_eq

theorem insertionSort_mem (le : α → α → Bool) (l : List α) (x : α) :
    x ∈ insertionSort le l ↔ x ∈ l :=
  (insertionSort_perm le l).mem_iff

theorem insertionSort_eq_self (le : α → α → Bool) :
    ∀ l : List α, l.Pairwise (fun a b => le a b = true) → insertionSort le l = l := by
  intro l
  induction l with
  | nil => intro _; rfl
  | cons x xs ih =>
    intro hp
    rw [List.pairwise_cons] at hp
    have hxs : insertionSort le xs = xs := ih hp.2
    show insertBy le x (insertionSort le xs) = x :: xs
    rw [hxs]
    cases xs with
    | nil => rfl
    | cons y ys => simp [insertBy, hp.1 y (by simp)]

theorem foldl_add_map (f : α → Nat) :
    ∀ (l : List α) (acc : Nat), l.foldl (fun a p => a + f p) acc = acc + (l.map f).sum := by
  intro l
  induction l with
  | nil => intro acc; simp
  | cons x xs ih => intro acc; simp [ih, Nat.add_assoc]

theorem count_fold (v : Nat) :
    ∀ (l : List Nat) (acc : Nat),
      l.foldl (fun acc t => if v ≥ t then acc + 1 else acc) acc
        = acc + l.countP (fun t => decide (t ≤ v)) := by
  intro l
  induction l with
  | nil => intro acc; simp
  | cons t ts ih =>
    intro acc
    by_cases h : t ≤ v
    · simp only [List.foldl_cons, ge_iff_le, if_pos h, ih, List.countP_cons, h]
      simp; omega
    · simp only [List.foldl_cons, ge_iff_le, if_neg h, ih, List.countP_cons, h]
      simp

theorem maxLevelOf_eq (v : Nat) : maxLevelOf v = maxLevelSpec v := by
  show ([1, 4, 8, 12, 16, 20] : List Nat).foldl (fun acc t => if v ≥ t then acc + 1 else acc) 0
      = maxLevelSpec v
  rw [count_fold]
  simp [maxLevelSpec]

theorem perAttr_eq (name : String) (v : Nat) : perAttrPower name v = perAttrPowerSpec name v := by
  unfold perAttrPower perAttrPowerSpec
  rw [maxLevelOf_eq]
  by_cases h : maxLevelSpec v = 0
  · simp [h]
  · simp [Nat.pos_of_ne_zero h, h]

/-- C2: the combat power score is the sum over breakdown attributes of the
per-attribute power (basic or special table keyed by the count of thresholds
reached, zero at level 0), plus the total-value power with missing keys (for
example totals 9 through 17) contributing 0; the score is non-negative. -/
theorem c2_combat_power (modules : List ModuleInfo) :
    (calculateCombatPower modules).1
      = ((calculateCombatPower modules).2.map (fun p => perAttrPowerSpec p.1 p.2)).sum
        + (TOTAL_ATTR_POWER_MAP.lookup
            (((calculateCombatPower modules).2.map (fun p => p.2)).sum)).getD 0
    ∧ (∀ v : Nat, maxLevelOf v = (([1, 4, 8, 12, 16, 20] : List Nat).countP (fun t => decide (t ≤ v))))
    ∧ TOTAL_ATTR_POWER_MAP.lookup 9 = none ∧ TOTAL_ATTR_POWER_MAP.lookup 10 = none
    ∧ TOTAL_ATTR_POWER_MAP.lookup 11 = none ∧ TOTAL_ATTR_POWER_MAP.lookup 12 = none
    ∧ TOTAL_ATTR_POWER_MAP.lookup 13 = none ∧ TOTAL_ATTR_POWER_MAP.lookup 14 = none
    ∧ TOTAL_ATTR_POWER_MAP.lookup 15 = none ∧ TOTAL_ATTR_POWER_MAP.lookup 16 = none
    ∧ TOTAL_ATTR_POWER_MAP.lookup 17 = none
    ∧ 0 ≤ (calculateCombatPower modules).1 := by
  refine ⟨?_, fun v => maxLevelOf_eq v, by decide, by decide, by decide, by decide, by decide,
    by decide, by decide, by decide, by decide, Nat.zero_le _⟩
  have h1 : (calculateCombatPower modules).1
      = ((computeAttrBreakdown modules).foldl (fun acc p => acc + perAttrPower p.1 p.2) 0)
        + (TOTAL_ATTR_POWER_MAP.lookup
            ((computeAttrBreakdown modules).foldl (fun acc p => acc + p.2) 0)).getD 0 := rfl
  have h2 : (calculateCombatPower modules).2 = computeAttrBreakdown modules := rfl
  have hf : (fun p : String × Nat => perAttrPower p.1 p.2)
      = (fun p : String × Nat => perAttrPowerSpec p.1 p.2) :=
    funext fun p => perAttr_eq p.1 p.2
  rw [h1, h2, foldl_add_map, foldl_add_map, Nat.zero_add, Nat.zero_add, hf]

theorem extractPartsGo_length (iln : ScalarOrSeq) :
    ∀ (mpa : List Nat) (k : Nat), (extractPartsGo iln mpa k).length = mpa.length := by
  intro mpa
  induction mpa with
  | nil => intro k; rfl
  | cons p ps ih => intro k; simp [extractPartsGo, ih]

theorem extractPartsGo_values_seq (l : List Nat) :
    ∀ (mpa : List Nat) (k : Nat),
      (extractPartsGo (.seq l) mpa k).map (fun p => p.value)
        = (List.range mpa.length).map (fun i => l.getD (k + i) 1) := by
  intro mpa
  induction mpa with
  | nil => intro k; rfl
  | cons p ps ih =>
    intro k
    simp only [extractPartsGo, List.map_cons, List.length_cons, List.range_succ_eq_map,
      List.map_map, ih]
    congr 1
    apply List.map_congr_left
    intro i _
    simp only [Function.comp_apply]
    congr 1
    omega

theorem extractPartsGo_values_scalar (n : Nat) :
    ∀ (mpa : List Nat) (k : Nat),
      (extractPartsGo (.scalar n) mpa k).map (fun p => p.value) = mpa.map (fun _ => 1) := by
  intro mpa
  induction mpa with
  | nil => intro k; rfl
  | cons p ps ih => intro k; simp [extractPartsGo, ih, ilnValue06]

theorem zipParts_eq_zipWith :
    ∀ (mp iln : List Nat), zipParts mp iln = List.zipWith mkModulePart005 mp iln := by
  intro mp
  induction mp with
  | nil => intro iln; cases iln <;> rfl
  | cons p ps ih =>
    intro iln
    cases iln with
    | nil => rfl
    | cons v vs => simp [zipParts, ih]

/-- C1 counterexample: an item with two modParts entries and a matching
modInfos entry holding a single initLinkNums value. ModuleParser.parseModuleInfo
yields only one ModulePart for it (the second modParts entry is dropped, not
defaulted to value 1), so not every entry of modParts yields a ModulePart of
the resulting ModuleInfo; the monitor extractor yields two on the same data. -/
theorem c1_counterexample :
    (parseModuleInfo c1VData).map (fun m => m.parts.length) = [1]
    ∧ normalizeSS (ScalarOrSeq.seq [1110, 1113]) = [1110, 1113]
    ∧ (extractModulesFromCharSerialize c1VData).map (fun m => m.parts.length) = [2] := by
  decide

/-- C1 amended: in the monitor extractor every entry of the normalized
modParts yields one ModulePart, whose value is initLinkNums[i] when i is in
range and the default 1 otherwise, and a scalar initLinkNums is not itself
normalized (every value then defaults to 1); in ModuleParser.parseModuleInfo
modParts[i] is paired with initLinkNums[i] only below the length of
initLinkNums, later entries being dropped without any default. -/
theorem c1_amended_parts :
    (∀ (iln : ScalarOrSeq) (mpa : List Nat), (extractPartsGo iln mpa 0).length = mpa.length)
    ∧ (∀ (l mpa : List Nat),
        (extractPartsGo (.seq l) mpa 0).map (fun p => p.value)
          = (List.range mpa.length).map (fun i => l.getD i 1))
    ∧ (∀ (n : Nat) (mpa : List Nat),
        (extractPartsGo (.scalar n) mpa 0).map (fun p => p.value) = mpa.map (fun _ => 1))
    ∧ (∀ (mp iln : List Nat), zipParts mp iln = List.zipWith mkModulePart005 mp iln)
    ∧ (∀ (mp iln : List Nat), (zipParts mp iln).length = min mp.length iln.length) := by
  refine ⟨fun iln mpa => extractPartsGo_length iln mpa 0,
    fun l mpa => ?_,
    fun n mpa => extractPartsGo_values_scalar n mpa 0,
    fun mp iln => zipParts_eq_zipWith mp iln,
    fun mp iln => ?_⟩
  · rw [extractPartsGo_values_seq l mpa 0]
    simp
  · rw [zipParts_eq_zipWith]
    exact List.length_zipWith ..

/-- C10: a package whose first enumerated item lacks ModNewAttr contributes
no module, whatever the later items carry; parseModuleInfo is the
concatenation of the per-package contributions. -/
theorem c10_first_item_gate (modInfos : List (String × ModInfoDetails)) (pkg : Package)
    (key : String) (first : Item)
    (hfirst : pkg.items.head? = some (key, first)) (hnoattr : first.modNewAttr = none) :
    parsePackage modInfos pkg = []
    ∧ ∀ vData : CharSerializeView,
        parseModuleInfo vData
          = (vData.packages.map (fun kv => parsePackage vData.modInfos kv.2)).flatten := by
  refine ⟨?_, fun vData => rfl⟩
  unfold parsePackage
  rw [hfirst]
  simp [hnoattr]

/-- C10 witness: the concrete gated package of c10VData contributes nothing
although its second item carries a non-empty ModParts sequence and a
matching ModInfos entry. -/
theorem c10_first_item_gate_witness :
    parsePackage c10VData.modInfos c10Pkg = [] :=
  (c10_first_item_gate c10VData.modInfos c10Pkg "a" ⟨5500101, 1, 5, none⟩ rfl rfl).1

/-- C4 counterexample: with expected next sequence exactly 2 ^ 31 (which is
not strictly greater than 2 ^ 31) and seq 0 (strictly below expected), the
claim says the segment is not buffered, yet shouldCache holds (the source
tests expected above 0x7fffffff, reached at 2 ^ 31) and the segment lands in
the cache of the processed state. -/
theorem c4_counterexample :
    jsUShr0 c4State.tcpNextSeq = 2 ^ 31
    ∧ shouldCache (2 ^ 31) 0 = true
    ∧ (processTcpStream 5 0 0 [1] c4State).tcpCache = [(0, ⟨[1], 0⟩)]
    ∧ ¬ bufferSpecC4 (2 ^ 31) 0 := by
  refine ⟨by decide, by decide, by decide, ?_⟩
  intro h
  rcases h with h | ⟨h, _⟩
  · omega
  · omega

/-- C4 amended: a segment is buffered iff seq is at or past the expected next
sequence, or the expected next sequence is at least 2 ^ 31 (not strictly
greater) and seq is below 2 ^ 31; the spec condition is sufficient but its
boundary differs at expected exactly 2 ^ 31. -/
theorem c4_should_cache_amended (expected seq : Nat) :
    (shouldCache expected seq = true ↔ (expected ≤ seq ∨ (2 ^ 31 ≤ expected ∧ seq < 2 ^ 31)))
    ∧ (bufferSpecC4 expected seq → shouldCache expected seq = true) := by
  constructor
  · simp only [shouldCache, Bool.or_eq_true, Bool.and_eq_true, decide_eq_true_eq]
    constructor
    · rintro (h | ⟨h1, h2⟩)
      · exact Or.inl h
      · exact Or.inr ⟨by omega, by omega⟩
    · rintro (h | ⟨h1, h2⟩)
      · exact Or.inl h
      · exact Or.inr ⟨by omega, by omega⟩
  · intro h
    simp only [shouldCache, Bool.or_eq_true, Bool.and_eq_true, decide_eq_true_eq]
    rcases h with h | ⟨h1, h2⟩
    · exact Or.inl h
    · exact Or.inr ⟨by omega, by omega⟩

/-- C5 counterexample: a compressed Notify body carrying methodId 21 whose
payload fails zstd decompression is still emitted as an inventory container
candidate, with the original compressed payload, rather than dropped. -/
theorem c5_counterexample :
    (fun _ => (none : Option (List Nat))) (c5Body.drop 16) = none
    ∧ processNotifyMsg (fun _ => none) true c5Body = some ⟨[9, 9], true, 21⟩
    ∧ c5Body.drop 16 = [9, 9] := by
  exact ⟨rfl, by decide, by decide⟩

/-- C5 amended: a FrameDown message whose nested packet fails decompression
is dropped, but a Notify message whose payload fails decompression continues
with the original payload and, on methodId 21 for the game service, is
emitted as an inventory container candidate carrying the compressed bytes. -/
theorem c5_amended_drop (recurse : List Nat → Option NotifyResult)
    (zstd : List Nat → Option (List Nat)) (body nbody : List Nat)
    (h1 : zstd (body.drop 4) = none)
    (h2 : zstd (nbody.drop 16) = none)
    (h3 : beNat (nbody.take 8) = GAME_SERVICE_UUID)
    (h4 : beNat ((nbody.drop 12).take 4) = 21)
    (h5 : 16 ≤ nbody.length) :
    processFrameDownMsg recurse zstd true body = none
    ∧ processNotifyMsg zstd true nbody = some ⟨nbody.drop 16, true, 21⟩ := by
  constructor
  · unfold processFrameDownMsg
    by_cases hb : body.length < 4
    · simp [hb]
    · simp only [hb, if_false]
      by_cases hn : body.drop 4 = []
      · simp [hn]
      · simp [hn, h1]
  · unfold processNotifyMsg
    rw [if_neg (by omega)]
    simp only [h3, h4, ne_eq, not_true_eq_false, if_false]
    by_cases hp : nbody.drop 16 = []
    · simp [hp]
    · simp [hp, h2]

/-- C5 witness: at a concrete failing decompressor, the FrameDown message is
dropped and the Notify body c5Body is emitted with its original payload. -/
theorem c5_amended_drop_witness :
    processFrameDownMsg (fun _ => none) (fun _ => none) true [0, 0, 0, 0, 1] = none
    ∧ processNotifyMsg (fun _ => none) true c5Body = some ⟨c5Body.drop 16, true, 21⟩ :=
  c5_amended_drop (fun _ => none) (fun _ => none) [0, 0, 0, 0, 1] c5Body
    rfl rfl (by decide) (by decide) (by decide)

theorem processCompletePackets_cache :
    ∀ (fuel : Nat) (s : CapState), (processCompletePackets fuel s).1.tcpCache = s.tcpCache := by
  intro fuel
  induction fuel with
  | zero => intro s; rfl
  | succ n ih =>
    intro s
    unfold processCompletePackets
    by_cases hlen : 4 < s.data.length
    · simp only [hlen, if_true]
      cases hread : readUInt32BE s.data 0 with
      | none => rfl
      | some packetSize =>
        by_cases h1 : s.data.length < packetSize
        · simp [h1]
        · by_cases h2 : 0x0fffff < packetSize
          · simp [h1, h2]
          · simp only [h1, if_false, h2]
            exact ih _
    · simp [hlen]

/-- C6 counterexample: the outer loop reads a size field of 5 (below the
minimum 6) from a state with a non-empty segment cache; afterwards the cache
is untouched (not cleared) and the byte queue still holds bytes (not
dropped), so the flow is not reset. -/
theorem c6_counterexample :
    readUInt32BE c6State.data 0 = some 5
    ∧ (processCompletePackets 10 c6State).1.tcpCache = c6State.tcpCache
    ∧ c6State.tcpCache ≠ []
    ∧ (processCompletePackets 10 c6State).1.data ≠ [] := by
  decide

/-- C6 amended: a size above 0x0fffff with that many bytes buffered stops the
drain, logging an error, with the state unchanged and nothing emitted; the
outer loop never clears the segment cache (a size below 6 is rejected only
inside the payload parser, which returns null for that packet); the system
keeps listening, nothing being reset. -/
theorem c6_amended_no_reset (fuel : Nat) (s : CapState) (n : Nat)
    (hn : readUInt32BE s.data 0 = some n) (hlen : n ≤ s.data.length) (hbig : 0x0fffff < n) :
    processCompletePackets fuel s = (s, [])
    ∧ ∀ (fuel2 : Nat) (s2 : CapState),
        (processCompletePackets fuel2 s2).1.tcpCache = s2.tcpCache := by
  refine ⟨?_, fun fuel2 s2 => processCompletePackets_cache fuel2 s2⟩
  cases fuel with
  | zero => rfl
  | succ m =>
    unfold processCompletePackets
    have h4 : 4 < s.data.length := by omega
    simp [h4, hn, if_neg (by omega : ¬ s.data.length < n), hbig]

/-- C6 witness: a state holding a full 0x100000-byte packet announced by its
size field (one above the maximum valid size) is left untouched. -/
theorem c6_amended_no_reset_witness :
    processCompletePackets 3 c6Big = (c6Big, []) :=
  (c6_amended_no_reset 3 c6Big 1048576 rfl
    (by have h : c6Big.data.length = 1048576 := by
          rw [show c6Big.data = 0 :: 16 :: 0 :: 0 :: List.replicate 1048572 0 from rfl,
            List.length_cons, List.length_cons, List.length_cons, List.length_cons,
            List.length_replicate]
        rw [h])
    (by omega)).1

theorem addModule_mem (s : List ModuleInfo) (m x : ModuleInfo) :
    x ∈ addModule s m ↔ x ∈ s ∨ x = m := by
  unfold addModule
  by_cases h : m ∈ s
  · simp only [h, if_true]
    constructor
    · exact Or.inl
    · rintro (hx | rfl)
      · exact hx
      · exact h
  · simp [h]

theorem addAll_mem :
    ∀ (xs s : List ModuleInfo) (x : ModuleInfo), x ∈ addAll s xs ↔ x ∈ s ∨ x ∈ xs := by
  intro xs
  induction xs with
  | nil => intro s x; simp [addAll]
  | cons y ys ih =>
    intro s x
    show x ∈ addAll (addModule s y) ys ↔ _
    rw [ih, addModule_mem]
    simp only [List.mem_cons]
    tauto

theorem prefilter_skip_all (P : List ModuleInfo) :
    prefilterModules P (some [])
      = addAll [] ((sortedByTotalValue P).take prefilterTopNTotalValue) := by
  unfold prefilterModules
  by_cases h : P.length = 0
  · rw [List.length_eq_zero.mp h]
    rfl
  · simp only [h, if_false]
    generalize addAll [] ((sortedByTotalValue P).take prefilterTopNTotalValue) = c
    generalize buildAttrModules P = L
    induction L generalizing c with
    | nil => rfl
    | cons e es ih =>
      show List.foldl (prefilterStep (some [])) (prefilterStep (some []) c e) es = c
      have hstep : prefilterStep (some []) c e = c := by
        unfold prefilterStep
        rw [if_pos (by simp [attrSkip])]
      rw [hstep, ih]

theorem prefilterStep_mono (pa : Option (List String)) (cand : List ModuleInfo)
    (entry : String × List (ModuleInfo × Nat)) (x : ModuleInfo) (hx : x ∈ cand) :
    x ∈ prefilterStep pa cand entry := by
  unfold prefilterStep
  split
  · exact hx
  · exact (addAll_mem _ _ _).mpr (Or.inl hx)

theorem foldl_prefilterStep_mono (pa : Option (List String)) :
    ∀ (L : List (String × List (ModuleInfo × Nat))) (c : List ModuleInfo) (x : ModuleInfo),
      x ∈ c → x ∈ L.foldl (prefilterStep pa) c := by
  intro L
  induction L with
  | nil => intro c x hx; exact hx
  | cons e es ih => intro c x hx; exact ih _ x (prefilterStep_mono pa c e x hx)

theorem foldl_prefilterStep_batch (pa : Option (List String)) :
    ∀ (L : List (String × List (ModuleInfo × Nat))) (c : List ModuleInfo)
      (e : String × List (ModuleInfo × Nat)), e ∈ L → attrSkip pa e.1 = false →
      ∀ mv ∈ (insertionSort (fun a b => decide (b.2 ≤ a.2)) e.2).take prefilterTopNPerAttr,
        mv.1 ∈ L.foldl (prefilterStep pa) c := by
  intro L
  induction L with
  | nil => intro c e he; exact absurd he (List.not_mem_nil e)
  | cons f fs ih =>
    intro c e he hskip mv hmv
    rcases List.mem_cons.mp he with rfl | he2
    · rw [List.foldl_cons]
      apply foldl_prefilterStep_mono
      unfold prefilterStep
      rw [hskip]
      simp only [Bool.false_eq_true, if_false]
      exact (addAll_mem _ _ _).mpr (Or.inr (List.mem_map_of_mem _ hmv))
    · exact ih _ e he2 hskip mv hmv

/-- C7 amended: the per-attribute top lists are excluded whenever
prioritizedAttrs is present, even when it is the empty list: with an empty
prioritizedAttrs the working pool is exactly the top-100-by-total-value set
A alone; the top-60 list of every attribute present joins the pool only when
prioritizedAttrs is null, or when the attribute belongs to a non-empty
prioritizedAttrs. -/
theorem c7_amended_prefilter :
    (∀ (P : List ModuleInfo) (m : ModuleInfo),
        m ∈ prefilterModules P (some [])
          ↔ m ∈ (sortedByTotalValue P).take prefilterTopNTotalValue)
    ∧ (∀ (P : List ModuleInfo) (entry : String × List (ModuleInfo × Nat))
          (mv : ModuleInfo × Nat),
        entry ∈ buildAttrModules P →
        mv ∈ (insertionSort (fun a b => decide (b.2 ≤ a.2)) entry.2).take prefilterTopNPerAttr →
        mv.1 ∈ prefilterModules P none)
    ∧ (∀ (P : List ModuleInfo) (l : List String) (entry : String × List (ModuleInfo × Nat))
          (mv : ModuleInfo × Nat),
        entry ∈ buildAttrModules P → entry.1 ∈ l →
        mv ∈ (insertionSort (fun a b => decide (b.2 ≤ a.2)) entry.2).take prefilterTopNPerAttr →
        mv.1 ∈ prefilterModules P (some l)) := by
  have hne : ∀ (P : List ModuleInfo) (pa : Option (List String))
      (entry : String × List (ModuleInfo × Nat)) (mv : ModuleInfo × Nat),
      entry ∈ buildAttrModules P → attrSkip pa entry.1 = false →
      mv ∈ (insertionSort (fun a b => decide (b.2 ≤ a.2)) entry.2).take prefilterTopNPerAttr →
      mv.1 ∈ prefilterModules P pa := by
    intro P pa entry mv hentry hskip hmv
    unfold prefilterModules
    by_cases h : P.length = 0
    · rw [List.length_eq_zero.mp h] at hentry
      exact absurd hentry (List.not_mem_nil entry)
    · simp only [h, if_false]
      exact foldl_prefilterStep_batch pa (buildAttrModules P) _ entry hentry hskip mv hmv
  refine ⟨?_, ?_, ?_⟩
  · intro P m
    rw [prefilter_skip_all, addAll_mem]
    simp
  · intro P entry mv hentry hmv
    exact hne P none entry mv hentry rfl hmv
  · intro P l entry mv hentry hl hmv
    exact hne P (some l) entry mv hentry (by simp [attrSkip, hl]) hmv

/-- C7 witness: a one-module pool with a prioritized attribute list naming
its attribute keeps the module in the working pool. -/
theorem c7_amended_prefilter_witness :
    c7Tiny ∈ prefilterModules [c7Tiny] (some ["Y"]) :=
  c7_amended_prefilter.2.2 [c7Tiny] ["Y"] ("Y", [(c7Tiny, 2)]) (c7Tiny, 2)
    (by decide) (by decide) (by decide)

theorem c7_sorted_pool : sortedByTotalValue c7Pool = c7Pool := by
  apply insertionSort_eq_self
  unfold c7Pool
  rw [List.pairwise_append]
  refine ⟨List.pairwise_of_forall_mem_list ?_, by simp, ?_⟩
  · intro a ha b hb
    rcases List.mem_map.mp ha with ⟨i, _, rfl⟩
    rcases List.mem_map.mp hb with ⟨j, _, rfl⟩
    rfl
  · intro a ha b hb
    rcases List.mem_map.mp ha with ⟨i, _, rfl⟩
    rw [List.mem_singleton.mp hb]
    rfl

/-- C7 counterexample: in a pool of 101 modules where c7ModX is the only
carrier of attribute X but ranks last by total value, calling the pre-filter
with an empty prioritizedAttrs array drops the per-attribute top lists
entirely: c7ModX is excluded from the working pool although the claim says
the top-60 list of attribute X (which contains it) is included when
prioritizedAttrs is empty. -/
theorem c7_counterexample :
    c7ModX ∈ c7Pool
    ∧ c7ModX.parts = [⟨1, "X", 1⟩]
    ∧ c7ModX ∉ prefilterModules c7Pool (some []) := by
  refine ⟨by simp [c7Pool], rfl, ?_⟩
  intro hmem
  rw [prefilter_skip_all, addAll_mem] at hmem
  rcases hmem with h | h
  · exact absurd h (List.not_mem_nil _)
  · rw [c7_sorted_pool] at h
    unfold c7Pool at h
    rw [show prefilterTopNTotalValue = ((List.range 100).map c7Filler).length by
          simp [prefilterTopNTotalValue],
        List.take_left] at h
    rcases List.mem_map.mp h with ⟨i, hi, heq⟩
    have hconfig : i = 100 := congrArg ModuleInfo.configId heq
    have hlt := List.mem_range.mp hi
    omega

theorem mapSet_length_le (cache : List (Nat × CacheEntry)) (k : Nat) (v : CacheEntry) :
    (mapSet cache k v).length ≤ cache.length + 1 := by
  unfold mapSet
  split
  · rw [List.length_map]
    omega
  · rw [List.length_append]
    simp

theorem filter_length_lt (p : Nat × CacheEntry → Bool) :
    ∀ (l : List (Nat × CacheEntry)) (x : Nat × CacheEntry), x ∈ l → p x = false →
      (l.filter p).length < l.length := by
  intro l
  induction l with
  | nil => intro x hx; exact absurd hx (List.not_mem_nil x)
  | cons y ys ih =>
    intro x hx hp
    rcases List.mem_cons.mp hx with rfl | hx2
    · rw [List.filter_cons, hp]
      simp only [Bool.false_eq_true, if_false, List.length_cons]
      exact Nat.lt_succ_of_le (List.length_filter_le p ys)
    · rw [List.filter_cons]
      by_cases hy : p y = true
      · simp only [hy, if_true, List.length_cons]
        exact Nat.succ_lt_succ (ih x hx2 hp)
      · simp only [hy, if_false, List.length_cons]
        exact Nat.lt_succ_of_lt (ih x hx2 hp)

theorem findOldestGo_spec :
    ∀ (l : List (Nat × CacheEntry)) (k t : Nat),
      ∃ k2 t2, findOldestGo l (some (k, t)) = some (k2, t2)
        ∧ t2 ≤ t
        ∧ (∀ p ∈ l, t2 ≤ p.2.lastAccess)
        ∧ ((k2 = k ∧ t2 = t) ∨ ∃ e, (k2, e) ∈ l ∧ e.lastAccess = t2) := by
  intro l
  induction l with
  | nil =>
    intro k t
    exact ⟨k, t, rfl, Nat.le_refl t, by simp, Or.inl ⟨rfl, rfl⟩⟩
  | cons q rest ih =>
    intro k t
    obtain ⟨k0, e0⟩ := q
    by_cases hlt : e0.lastAccess < t
    · obtain ⟨k2, t2, heq, hle, hall, hor⟩ := ih k0 e0.lastAccess
      refine ⟨k2, t2, ?_, by omega, ?_, ?_⟩
      · show (if e0.lastAccess < t then findOldestGo rest (some (k0, e0.lastAccess))
              else findOldestGo rest (some (k, t))) = some (k2, t2)
        rw [if_pos hlt]
        exact heq
      · intro p hp
        rcases List.mem_cons.mp hp with rfl | hp2
        · exact hle
        · exact hall p hp2
      · rcases hor with ⟨rfl, rfl⟩ | ⟨e, he, hee⟩
        · exact Or.inr ⟨e0, List.mem_cons_self _ _, rfl⟩
        · exact Or.inr ⟨e, List.mem_cons_of_mem _ he, hee⟩
    · obtain ⟨k2, t2, heq, hle, hall, hor⟩ := ih k t
      refine ⟨k2, t2, ?_, hle, ?_, ?_⟩
      · show (if e0.lastAccess < t then findOldestGo rest (some (k0, e0.lastAccess))
              else findOldestGo rest (some (k, t))) = some (k2, t2)
        rw [if_neg hlt]
        exact heq
      · intro p hp
        rcases List.mem_cons.mp hp with rfl | hp2
        · exact (by omega : t2 ≤ e0.lastAccess)
        · exact hall p hp2
      · rcases hor with ⟨rfl, rfl⟩ | ⟨e, he, hee⟩
        · exact Or.inl ⟨rfl, rfl⟩
        · exact Or.inr ⟨e, List.mem_cons_of_mem _ he, hee⟩

theorem findOldest_spec (cache : List (Nat × CacheEntry)) (hne : cache ≠ []) :
    ∃ k t, findOldest cache = some (k, t)
      ∧ (∀ p ∈ cache, t ≤ p.2.lastAccess)
      ∧ (∃ e, (k, e) ∈ cache)
      ∧ evictOldestCacheEntry cache = mapDelete cache k := by
  cases cache with
  | nil => exact absurd rfl hne
  | cons q rest =>
    obtain ⟨k0, e0⟩ := q
    obtain ⟨k2, t2, heq, hle, hall, hor⟩ := findOldestGo_spec rest k0 e0.lastAccess
    have hfind : findOldest ((k0, e0) :: rest) = some (k2, t2) := by
      show findOldestGo ((k0, e0) :: rest) none = some (k2, t2)
      unfold findOldestGo
      exact heq
    refine ⟨k2, t2, hfind, ?_, ?_, ?_⟩
    · intro p hp
      rcases List.mem_cons.mp hp with rfl | hp2
      · exact hle
      · exact hall p hp2
    · rcases hor with ⟨rfl, rfl⟩ | ⟨e, he, _⟩
      · exact ⟨e0, List.mem_cons_self _ _⟩
      · exact ⟨e, List.mem_cons_of_mem _ he⟩
    · unfold evictOldestCacheEntry
      rw [hfind]

theorem evict_length_lt (cache : List (Nat × CacheEntry)) (hne : cache ≠ []) :
    (evictOldestCacheEntry cache).length < cache.length := by
  obtain ⟨k, t, _, _, ⟨e, he⟩, hevict⟩ := findOldest_spec cache hne
  rw [hevict]
  exact filter_length_lt _ cache (k, e) he (by simp)

theorem cacheSegment_data (s : CapState) (seq : Nat) (payload : List Nat) (now : Nat) :
    (cacheSegment s seq payload now).data = s.data := by
  unfold cacheSegment
  split <;> rfl

theorem cacheSegment_cache_le (s : CapState) (seq : Nat) (payload : List Nat) (now : Nat)
    (h : s.tcpCache.length ≤ maxCacheSize) :
    (cacheSegment s seq payload now).tcpCache.length ≤ maxCacheSize := by
  unfold cacheSegment
  split
  · by_cases hfull : maxCacheSize ≤ s.tcpCache.length
    · have hne : s.tcpCache ≠ [] := by
        intro hnil
        rw [hnil] at hfull
        simp [maxCacheSize] at hfull
      have hlt := evict_length_lt s.tcpCache hne
      have := mapSet_length_le (evictOldestCacheEntry s.tcpCache) seq ⟨payload, now⟩
      simp only [hfull, if_true]
      omega
    · have := mapSet_length_le s.tcpCache seq ⟨payload, now⟩
      simp only [hfull, if_false]
      omega
  · exact h

theorem reassembleLoop_bounds :
    ∀ (fuel now : Nat) (s : CapState), s.data.length ≤ maxDataBufferSize →
      (reassembleLoop fuel now s).data.length ≤ maxDataBufferSize
      ∧ (reassembleLoop fuel now s).tcpCache.length ≤ s.tcpCache.length := by
  intro fuel
  induction fuel with
  | zero => intro now s h; exact ⟨h, Nat.le_refl _⟩
  | succ m ih =>
    intro now s h
    unfold reassembleLoop
    cases hget : mapGet s.tcpCache (jsUShr0 s.tcpNextSeq) with
    | none => exact ⟨h, Nat.le_refl _⟩
    | some entry =>
      by_cases hcap : maxDataBufferSize < s.data.length + entry.payload.length
      · simp only [hcap, if_true]
        exact ⟨by simp, by simp⟩
      · simp only [hcap, if_false]
        have hnew : (s.data ++ entry.payload).length ≤ maxDataBufferSize := by
          rw [List.length_append]
          omega
        obtain ⟨h1, h2⟩ := ih now
          { s with data := s.data ++ entry.payload,
                   tcpNextSeq := Int.ofNat ((jsUShr0 s.tcpNextSeq + entry.payload.length) % 2 ^ 32),
                   tcpCache := mapDelete s.tcpCache (jsUShr0 s.tcpNextSeq),
                   tcpLastTime := now } hnew
        refine ⟨h1, le_trans h2 ?_⟩
        exact List.length_filter_le _ _

theorem reassembleTcpStream_bounds (fuel now : Nat) (s : CapState)
    (hd : s.data.length ≤ maxDataBufferSize) (hc : s.tcpCache.length ≤ maxCacheSize) :
    (reassembleTcpStream fuel now s).data.length ≤ maxDataBufferSize
    ∧ (reassembleTcpStream fuel now s).tcpCache.length ≤ maxCacheSize := by
  unfold reassembleTcpStream
  split
  · exact ⟨hd, hc⟩
  · obtain ⟨h1, h2⟩ := reassembleLoop_bounds fuel now
      { s with tcpNextSeq := Int.ofNat (jsUShr0 s.tcpNextSeq) } hd
    exact ⟨h1, le_trans h2 hc⟩

/-- C8: processing a segment on the selected flow preserves the 10 MiB bound
on the reassembled queue and the 1000-entry bound on the segment cache; the
entry evicted from a full cache is one with the least lastAccess; and when
appending a drained segment would exceed the byte cap, the queue is dropped
and the cache cleared in the same step. -/
theorem c8_bounds_invariant (fuel now seqRaw : Nat) (payload : List Nat) (s : CapState)
    (hdata : s.data.length ≤ maxDataBufferSize)
    (hcache : s.tcpCache.length ≤ maxCacheSize) :
    ((processTcpStream fuel now seqRaw payload s).data.length ≤ maxDataBufferSize
      ∧ (processTcpStream fuel now seqRaw payload s).tcpCache.length ≤ maxCacheSize)
    ∧ (∀ cache : List (Nat × CacheEntry), cache ≠ [] →
        ∃ k t, findOldest cache = some (k, t)
          ∧ (∀ p ∈ cache, t ≤ p.2.lastAccess)
          ∧ evictOldestCacheEntry cache = mapDelete cache k)
    ∧ (∀ (fuel2 now2 : Nat) (s2 : CapState) (entry : CacheEntry),
        mapGet s2.tcpCache (jsUShr0 s2.tcpNextSeq) = some entry →
        maxDataBufferSize < s2.data.length + entry.payload.length →
        reassembleLoop (fuel2 + 1) now2 s2 = { s2 with data := [], tcpCache := [] }) := by
  refine ⟨?_, ?_, ?_⟩
  · have hmain : ∀ s3 : CapState, s3.data.length ≤ maxDataBufferSize →
        s3.tcpCache.length ≤ maxCacheSize →
        (reassembleTcpStream fuel now (cacheSegment s3 (seqRaw % 2 ^ 32) payload now)).data.length
            ≤ maxDataBufferSize
          ∧ (reassembleTcpStream fuel now
              (cacheSegment s3 (seqRaw % 2 ^ 32) payload now)).tcpCache.length ≤ maxCacheSize := by
      intro s3 h1 h2
      apply reassembleTcpStream_bounds
      · rw [cacheSegment_data]
        exact h1
      · exact cacheSegment_cache_le s3 _ payload now h2
    unfold processTcpStream
    by_cases hneg : s.tcpNextSeq = -1
    · simp only [hneg, if_true]
      by_cases hcond : 4 < payload.length ∧ (readUInt32BE payload 0).getD 0 < 0x0fffff
      · simp only [if_pos hcond]
        exact hmain { s with tcpNextSeq := Int.ofNat (seqRaw % 2 ^ 32) } hdata hcache
      · simp only [if_neg hcond]
        exact ⟨hdata, hcache⟩
    · simp only [hneg, if_false]
      exact hmain { s with tcpNextSeq := Int.ofNat (jsUShr0 s.tcpNextSeq) } hdata hcache
  · intro cache hne
    obtain ⟨k, t, hfind, hmin, _, hevict⟩ := findOldest_spec cache hne
    exact ⟨k, t, hfind, hmin, hevict⟩
  · intro fuel2 now2 s2 entry hget hover
    show (match mapGet s2.tcpCache (jsUShr0 s2.tcpNextSeq) with
      | none => s2
      | some entry =>
        if maxDataBufferSize < s2.data.length + entry.payload.length then
          { s2 with data := [], tcpCache := [] }
        else
          reassembleLoop fuel2 now2
            { s2 with data := s2.data ++ entry.payload,
                      tcpNextSeq :=
                        Int.ofNat ((jsUShr0 s2.tcpNextSeq + entry.payload.length) % 2 ^ 32),
                      tcpCache := mapDelete s2.tcpCache (jsUShr0 s2.tcpNextSeq),
                      tcpLastTime := now2 }) = { s2 with data := [], tcpCache := [] }
    rw [hget]
    simp only [hover, if_true]

/-- C8 witness: the bounds hold after processing a concrete in-order segment
on a small state. -/
theorem c8_bounds_invariant_witness :
    (processTcpStream 5 7 3 [4, 5] c8State).data.length ≤ maxDataBufferSize
    ∧ (processTcpStream 5 7 3 [4, 5] c8State).tcpCache.length ≤ maxCacheSize :=
  (c8_bounds_invariant 5 7 3 [4, 5] c8State (by decide) (by decide)).1

theorem extractModuleAtOffset_uuid (buffer : List Nat) (off now : Nat) (m : ModuleInfo)
    (h : extractModuleAtOffset buffer off now = some m) : m.uuid = now := by
  unfold extractModuleAtOffset at h
  cases hread : readUInt32LE buffer off with
  | none => rw [hread] at h; exact absurd h (by simp)
  | some configId =>
    rw [hread] at h
    by_cases hp : 0 < (extractPartsAtOffset buffer off).length
    · simp only [hp, if_true, Option.some_inj] at h
      rw [← h]
    · simp only [hp, if_false] at h
      exact absurd h (by simp)

theorem wireScanGo_uuids (buffer : List Nat) (clock : Nat → Nat) :
    ∀ (fuel off k : Nat),
      (wireScanGo buffer clock fuel off k).map (fun m => m.uuid)
        = (List.range (wireScanGo buffer clock fuel off k).length).map (fun j => clock (k + j)) := by
  intro fuel
  induction fuel with
  | zero => intro off k; rfl
  | succ n ih =>
    intro off k
    unfold wireScanGo
    by_cases hoff : off < buffer.length - 8
    · rw [if_pos hoff]
      split
      · rename_i v hread
        split
        · rename_i hv
          split
          · rename_i m hx
            rw [List.map_cons, List.length_cons, List.range_succ_eq_map, List.map_cons,
              List.map_map]
            congr 1
            · rw [extractModuleAtOffset_uuid buffer off (clock k) m hx, Nat.add_zero]
            · rw [ih (off + 1) (k + 1)]
              apply List.map_congr_left
              intro j _
              simp only [Function.comp_apply]
              congr 1
              omega
          · exact ih (off + 1) k
        · exact ih (off + 1) k
      · exact ih (off + 1) k
    · rw [if_neg hoff]
      rfl

/-- C9 counterexample: scanning a buffer with two configId hits under a
clock that does not advance (two Date.now calls in the same millisecond)
produces two distinct synthetic records carrying the same uuid, which do not
both survive uuid-based deduplication. -/
theorem c9_counterexample :
    (parseModulesFromWireFormat c9Buffer (fun _ => 0)).Nodup
    ∧ (parseModulesFromWireFormat c9Buffer (fun _ => 0)).length = 2
    ∧ ¬ ((parseModulesFromWireFormat c9Buffer (fun _ => 0)).map (fun m => m.uuid)).Nodup := by
  decide

/-- C9 amended: the k-th synthetic record of a scan carries uuid equal to the
k-th Date.now reading; the uuids of one scan are distinct only when the clock
strictly advances between extractions (Date.now repeats within a
millisecond, so records of one scan may share a uuid). -/
theorem c9_amended_uuid_clock (buffer : List Nat) (clock : Nat → Nat)
    (hmono : StrictMono clock) :
    (parseModulesFromWireFormat buffer clock).map (fun m => m.uuid)
      = (List.range (parseModulesFromWireFormat buffer clock).length).map clock
    ∧ ((parseModulesFromWireFormat buffer clock).map (fun m => m.uuid)).Nodup := by
  have h := wireScanGo_uuids buffer clock buffer.length 0 0
  have heq : (parseModulesFromWireFormat buffer clock).map (fun m => m.uuid)
      = (List.range (parseModulesFromWireFormat buffer clock).length).map clock := by
    unfold parseModulesFromWireFormat
    rw [h]
    apply List.map_congr_left
    intro j _
    rw [Nat.zero_add]
  refine ⟨heq, ?_⟩
  rw [heq]
  exact (List.nodup_range _).map hmono.injective

/-- C9 witness: under a strictly increasing clock the scan of c9Buffer
produces records whose uuids are the successive clock readings, all
distinct. -/
theorem c9_amended_uuid_clock_witness :
    (parseModulesFromWireFormat c9Buffer id).map (fun m => m.uuid)
      = (List.range (parseModulesFromWireFormat c9Buffer id).length).map id
    ∧ ((parseModulesFromWireFormat c9Buffer id).map (fun m => m.uuid)).Nodup :=
  c9_amended_uuid_clock c9Buffer id strictMono_id

theorem factorial_eq : ∀ n : Nat, factorial n = Nat.factorial n := by
  intro n
  induction n with
  | zero => rfl
  | succ k ih =>
    cases k with
    | zero => rfl
    | succ j =>
      show factorial (j + 1) * (j + 2) = Nat.factorial (j + 2)
      rw [ih, Nat.factorial_succ (j + 1)]
      ring

theorem initGo_spec (pool : List ModuleInfo) (hp4 : 4 ≤ pool.length) :
    ∀ (draws : List (List ModuleInfo)) (target : Nat) (population : List (List ModuleInfo))
      (seen : List (List Nat)) (pop : List (List ModuleInfo)),
      (∀ d ∈ draws, d.Perm pool) →
      population.length ≤ target →
      seen = population.map comboId →
      (population.map comboId).Nodup →
      (∀ sol ∈ population, sol.length = 4 ∧ ∀ m ∈ sol, m ∈ pool) →
      initGo target draws population seen = some pop →
      pop.length = target ∧ (pop.map comboId).Nodup
        ∧ (∀ sol ∈ pop, sol.length = 4 ∧ ∀ m ∈ sol, m ∈ pool) := by
  intro draws
  induction draws with
  | nil =>
    intro target population seen pop hdraws hlen hseen hnd hok hrun
    unfold initGo at hrun
    split at hrun
    · obtain rfl : population = pop := Option.some_inj.mp hrun
      exact ⟨Nat.le_antisymm hlen (by omega), hnd, hok⟩
    · exact absurd hrun (by simp)
  | cons d rest ih =>
    intro target population seen pop hdraws hlen hseen hnd hok hrun
    unfold initGo at hrun
    by_cases h : target ≤ population.length
    · rw [if_pos h] at hrun
      obtain rfl : population = pop := Option.some_inj.mp hrun
      exact ⟨Nat.le_antisymm hlen h, hnd, hok⟩
    · rw [if_neg h] at hrun
      have hdperm : d.Perm pool := hdraws d (List.mem_cons_self d rest)
      have hdlen : d.length = pool.length := hdperm.length_eq
      have hsol_len : (sortByUuid (d.take 4)).length = 4 := by
        unfold sortByUuid
        rw [insertionSort_length, List.length_take]
        omega
      have hsol_mem : ∀ m ∈ sortByUuid (d.take 4), m ∈ pool := by
        intro m hm
        unfold sortByUuid at hm
        rw [insertionSort_mem] at hm
        exact hdperm.mem_iff.mp (List.mem_of_mem_take hm)
      by_cases hid : comboId (sortByUuid (d.take 4)) ∈ seen
      · rw [if_pos hid] at hrun
        exact ih target population seen pop
          (fun e he => hdraws e (List.mem_cons_of_mem d he)) hlen hseen hnd hok hrun
      · rw [if_neg hid] at hrun
        refine ih target (population ++ [sortByUuid (d.take 4)])
          (seen ++ [comboId (sortByUuid (d.take 4))]) pop
          (fun e he => hdraws e (List.mem_cons_of_mem d he)) ?_ ?_ ?_ ?_ hrun
        · rw [List.length_append]
          simp only [List.length_singleton]
          omega
        · rw [List.map_append, hseen]
          rfl
        · rw [List.map_append]
          rw [hseen] at hid
          simp [List.nodup_append, hnd, hid]
        · intro sol hsol
          rcases List.mem_append.mp hsol with hin | hone
          · exact hok sol hin
          · rw [List.mem_singleton.mp hone]
            exact ⟨hsol_len, hsol_mem⟩

/-- C3 supporting theorem (exact arithmetic): with the factorial computed
exactly, initialization on a pool of at least 4 modules that terminates
returns exactly min(populationSize, C(|pool|, 4)) canonical solutions with
pairwise distinct combination ids, each a 4-element selection from the pool;
the population is never empty, and a pool of exactly 4 modules yields one
solution. The shipped code computes the factorials in JavaScript doubles,
which overflow to Infinity at 171!, so this property fails there for pools
of 175 or more modules (the code bug recorded for this claim). -/
theorem c3_init_population_exact (pool : List ModuleInfo) (size : Nat)
    (draws : List (List ModuleInfo)) (pop : List (List ModuleInfo))
    (hpool : 4 ≤ pool.length) (hsize : 1 ≤ size)
    (hdraws : ∀ d ∈ draws, d.Perm pool)
    (hrun : initializePopulation pool size draws = some pop) :
    pop.length = min size (Nat.choose pool.length 4)
    ∧ 1 ≤ pop.length
    ∧ (pop.map comboId).Nodup
    ∧ (∀ sol ∈ pop, sol.length = 4 ∧ ∀ m ∈ sol, m ∈ pool)
    ∧ (pool.length = 4 → pop.length = 1) := by
  have hrun2 : (if min size (factorial pool.length / (factorial 4 * factorial (pool.length - 4))) = 0
      then some ([] : List (List ModuleInfo))
      else initGo (min size (factorial pool.length / (factorial 4 * factorial (pool.length - 4))))
        draws [] []) = some pop := by
    have : ¬ pool.length < 4 := by omega
    unfold initializePopulation at hrun
    rw [if_neg this] at hrun
    exact hrun
  have htarget : factorial pool.length / (factorial 4 * factorial (pool.length - 4))
      = Nat.choose pool.length 4 := by
    rw [factorial_eq, factorial_eq, factorial_eq, ← Nat.choose_eq_factorial_div_factorial hpool]
  rw [htarget] at hrun2
  have hpos : 1 ≤ min size (Nat.choose pool.length 4) :=
    Nat.le_min.mpr ⟨hsize, Nat.choose_pos hpool⟩
  rw [if_neg (by omega)] at hrun2
  obtain ⟨hlen, hnd, hok⟩ := initGo_spec pool hpool draws
    (min size (Nat.choose pool.length 4)) [] [] pop hdraws (by simp) rfl (by simp)
    (by intro sol hsol; exact absurd hsol (List.not_mem_nil sol)) hrun2
  refine ⟨hlen, by omega, hnd, hok, ?_⟩
  intro h4
  rw [hlen, h4, Nat.choose_self]
  omega

/-- C3 witness: a pool of exactly 4 modules with one draw yields a single
canonical solution, matching min(150, C(4, 4)) = 1. -/
theorem c3_init_population_exact_witness :
    ([c3Pool] : List (List ModuleInfo)).length = min 150 (Nat.choose c3Pool.length 4)
    ∧ 1 ≤ ([c3Pool] : List (List ModuleInfo)).length
    ∧ (([c3Pool] : List (List ModuleInfo)).map comboId).Nodup
    ∧ (∀ sol ∈ ([c3Pool] : List (List ModuleInfo)), sol.length = 4 ∧ ∀ m ∈ sol, m ∈ c3Pool)
    ∧ (c3Pool.length = 4 → ([c3Pool] : List (List ModuleInfo)).length = 1) :=
  c3_init_population_exact c3Pool 150 [c3Pool] [c3Pool] (by decide) (by decide)
    (by intro d hd
        rw [List.mem_singleton] at hd
        subst hd
        exact List.Perm.refl c3Pool)
    (by decide)
